import Mathlib

/-!
Formal model of the adaptive AIMD concurrency limiter implemented in
`grpc/grpcserver/concurrency.go`.

Embedding conventions:
* The Go `int64` counters (`inflight`, `limit`) are modelled as unbounded
  `Int`; no claim in scope depends on 64-bit wraparound.
* The Go `float64` field `backoffRatio` and the expression
  `int64(float64(l.limit) * l.backoffRatio)` are modelled with exact rational
  arithmetic followed by truncation toward zero, the rounding mode of Go's
  float-to-integer conversion.
* Go integer division on `int64` (`l.limit / 2`) truncates toward zero,
  hence `Int.tdiv`.
* The methods `start` and `finish` run under the limiter's mutex, so each
  call is atomic; concurrent histories are modelled as arbitrary sequences
  of these atomic operations.
-/

/-- Truncation toward zero of a rational number: the semantics of Go's
`int64(x)` conversion applied to a (here: exactly represented) float. -/
def truncQ (q : ℚ) : Int := Int.tdiv q.num (q.den : Int)

/-- The gRPC status codes of `google.golang.org/grpc/codes`. -/
inductive codes.Code where
  | ok
  | canceled
  | unknown
  | invalidArgument
  | deadlineExceeded
  | notFound
  | alreadyExists
  | permissionDenied
  | resourceExhausted
  | failedPrecondition
  | aborted
  | outOfRange
  | unimplemented
  | internal
  | unavailable
  | dataLoss
  | unauthenticated
deriving DecidableEq, Repr

/-- The Go `error` values reaching `limiter.finish`: `nil`, a gRPC status
error carrying a code, or any other (non-status) error. -/
inductive GoError where
  | nilErr
  | statusErr (c : codes.Code)
  | nonStatusErr
deriving DecidableEq, Repr

/-- `status.Code(err)` from `google.golang.org/grpc/status`: `nil` maps to
`OK`, a status error to its own code, any other error to `Unknown`. -/
def status.Code : GoError → codes.Code
  | .nilErr => .ok
  | .statusErr c => c
  | .nonStatusErr => .unknown

/-- The state of `type limiter struct`: the fixed backoff ratio and the two
mutex-guarded counters. The mutex itself is represented by the atomicity of
the operations below. -/
structure limiter where
  backoffRatio : ℚ
  inflight : Int
  limit : Int
deriving DecidableEq, Repr

/-- The admission ticket `type transaction struct`: the post-increment
in-flight count and the limit observed at admission. -/
structure transaction where
  inflight : Int
  limit : Int
deriving DecidableEq, Repr

/-- The constructor part of `Limiter(initial, backoffRatio)`: it only sets
`backoffRatio` and `limit`; `inflight` starts at Go's zero value. No
validation of the parameters is performed. -/
def Limiter (initial : Int) (backoffRatio : ℚ) : limiter :=
  { backoffRatio := backoffRatio, inflight := 0, limit := initial }

/-- `(*limiter).start`: if `inflight > limit`, refuse admission returning no
ticket and leaving the state unchanged; otherwise increment `inflight` and
return a ticket recording the post-increment `inflight` and current
`limit`. -/
def limiter.start (l : limiter) : Option transaction × limiter :=
  if l.inflight > l.limit then
    (none, l)
  else
    let l' : limiter := { l with inflight := l.inflight + 1 }
    (some { inflight := l'.inflight, limit := l'.limit }, l')

/-- `(*limiter).finish`: switch on `status.Code(err)`. On `Canceled`,
`DeadlineExceeded` or `Unavailable`: multiplicative decrease, guarded by
`limit >= tx.limit` and clamped below by 1. On every other code: additive
increase by 1 when `inflight > limit/2`. `inflight` is never touched. -/
def limiter.finish (l : limiter) (tx : transaction) (err : GoError) : limiter :=
  match status.Code err with
  | .canceled | .deadlineExceeded | .unavailable =>
    if l.limit ≥ tx.limit then
      let lim := truncQ ((l.limit : ℚ) * l.backoffRatio)
      let lim' := if lim < 1 then 1 else lim
      { l with limit := lim' }
    else
      l
  | _ =>
    if l.inflight > Int.tdiv l.limit 2 then
      { l with limit := l.limit + 1 }
    else
      l

/-- The outcome classification used by `finish`: a code is an overload
signal exactly when it is `Canceled`, `DeadlineExceeded` or `Unavailable`. -/
def isOverloadCode : codes.Code → Bool
  | .canceled => true
  | .deadlineExceeded => true
  | .unavailable => true
  | _ => false

/-- One atomic operation on the shared limiter state: an admit call or a
settle call with some ticket and outcome. -/
inductive Op where
  | start
  | finish (tx : transaction) (err : GoError)
deriving DecidableEq, Repr

/-- Effect of one atomic operation on the limiter state. -/
def limiter.step (l : limiter) : Op → limiter
  | .start => (limiter.start l).2
  | .finish tx err => limiter.finish l tx err

/-- State reached after a sequence of atomic operations. -/
def limiter.run (l : limiter) : List Op → limiter
  | [] => l
  | op :: ops => limiter.run (l.step op) ops

/-- State reached after `n` consecutive admit calls with no settles. -/
def limiter.runStarts (l : limiter) : Nat → limiter
  | 0 => l
  | n + 1 => limiter.runStarts (limiter.start l).2 n

/-! Helper lemmas about the embedded operations. -/

lemma truncQ_eq_floor (q : ℚ) (h : 0 ≤ q) : truncQ q = Int.floor q := by
  rw [truncQ, Rat.floor_def]
  exact Int.tdiv_eq_ediv (Rat.num_nonneg.mpr h) (Int.ofNat_nonneg _)

lemma ite_clamp_eq_max (x : Int) : (if x < 1 then (1 : Int) else x) = max 1 x := by
  rcases lt_or_le x 1 with h | h
  · simp [h, max_eq_left h.le]
  · simp [not_lt.mpr h, max_eq_right h]

lemma finish_overload_eq (l : limiter) (tx : transaction) (err : GoError)
    (h : isOverloadCode (status.Code err) = true) :
    l.finish tx err =
      if tx.limit ≤ l.limit then
        { l with limit := max 1 (truncQ ((l.limit : ℚ) * l.backoffRatio)) }
      else
        l := by
  rcases err with _ | c | _
  · simp [status.Code, isOverloadCode] at h
  · cases c <;> simp [status.Code, isOverloadCode] at h <;>
      simp [limiter.finish, status.Code, ge_iff_le, ite_clamp_eq_max]
  · simp [status.Code, isOverloadCode] at h

lemma finish_other_eq (l : limiter) (tx : transaction) (err : GoError)
    (h : isOverloadCode (status.Code err) = false) :
    l.finish tx err =
      if Int.tdiv l.limit 2 < l.inflight then
        { l with limit := l.limit + 1 }
      else
        l := by
  rcases err with _ | c | _
  · simp [limiter.finish, status.Code]
  · cases c <;> simp [status.Code, isOverloadCode] at h <;>
      simp [limiter.finish, status.Code]
  · simp [limiter.finish, status.Code]

lemma step_limit_ge_one (l : limiter) (op : Op) (h : 1 ≤ l.limit) :
    1 ≤ (l.step op).limit := by
  rcases op with _ | ⟨tx, err⟩
  · rw [limiter.step, limiter.start]
    split
    · exact h
    · simpa using h
  · rw [limiter.step]
    cases hov : isOverloadCode (status.Code err)
    · rw [finish_other_eq l tx err hov]
      split
      · simp only [limiter.limit]
        omega
      · exact h
    · rw [finish_overload_eq l tx err hov]
      split
      · simp only [limiter.limit]
        omega
      · exact h

lemma run_limit_ge_one (ops : List Op) (l : limiter) (h : 1 ≤ l.limit) :
    1 ≤ (l.run ops).limit := by
  induction ops generalizing l with
  | nil => simpa [limiter.run]
  | cons op ops ih => exact ih _ (step_limit_ge_one l op h)

lemma runStarts_eq (r : ℚ) (c i : Int) (hi : 0 ≤ i) (hic : i ≤ c + 1) (k : Nat) :
    ({ backoffRatio := r, inflight := i, limit := c } : limiter).runStarts k =
      { backoffRatio := r, inflight := min (i + k) (c + 1), limit := c } := by
  induction k generalizing i with
  | zero =>
    simp only [limiter.runStarts]
    congr 1
    omega
  | succ k ih =>
    rw [limiter.runStarts, limiter.start]
    split
    · rename_i hgt
      simp only at hgt
      rw [ih i hi hic]
      congr 1
      omega
    · rename_i hle
      simp only [not_lt] at hle
      simp only
      rw [ih (i + 1) (by omega) (by omega)]
      congr 1
      push_cast
      omega

lemma run_inflight_mono (ops : List Op) (l : limiter) :
    l.inflight ≤ (l.run ops).inflight := by
  induction ops generalizing l with
  | nil => simp [limiter.run]
  | cons op ops ih =>
    refine le_trans ?_ (ih (l.step op))
    rcases op with _ | ⟨tx, err⟩
    · rw [limiter.step, limiter.start]
      split
      · exact le_refl _
      · simp only [limiter.inflight]
        omega
    · rw [limiter.step]
      cases hov : isOverloadCode (status.Code err)
      · rw [finish_other_eq l tx err hov]
        split <;> exact le_refl _
      · rw [finish_overload_eq l tx err hov]
        split <;> exact le_refl _

/-! Claim theorems. -/

/-- C1: `start` compares the current `inflight` count to `limit` before
incrementing: if `inflight > limit` it refuses admission, returns no ticket
and changes nothing; otherwise it increments `inflight` and returns
(admitted) a ticket carrying the post-increment `inflight` and the current
`limit`. -/
theorem C1_start_admission (l : limiter) :
    (l.limit < l.inflight → l.start = (none, l)) ∧
    (l.inflight ≤ l.limit →
      l.start = (some { inflight := l.inflight + 1, limit := l.limit },
                 { l with inflight := l.inflight + 1 })) := by
  constructor
  · intro h
    simp [limiter.start, h]
  · intro h
    simp [limiter.start, not_lt.mpr h]

/-- C1 witness: a concrete admitted call. -/
theorem C1_start_admission_witness :
    (Limiter 2 (1/2)).start =
      (some { inflight := 1, limit := 2 },
       { backoffRatio := 1/2, inflight := 1, limit := 2 }) := by
  have h := (C1_start_admission (Limiter 2 (1/2))).2 (by decide)
  simpa [Limiter] using h

/-- C2: on an overload-signal settle, when the current limit is at least the
limit recorded in the ticket, the new limit is
`max 1 (floor (limit * backoffRatio))`; when the current limit is below the
ticket's recorded limit, the state is unchanged. -/
theorem C2_overload_decrease (l : limiter) (tx : transaction) (err : GoError)
    (hov : isOverloadCode (status.Code err) = true)
    (hlim : 0 ≤ l.limit) (hr : 0 ≤ l.backoffRatio) :
    (tx.limit ≤ l.limit →
      l.finish tx err =
        { l with limit := max 1 (Int.floor ((l.limit : ℚ) * l.backoffRatio)) }) ∧
    (l.limit < tx.limit → l.finish tx err = l) := by
  rw [finish_overload_eq l tx err hov]
  constructor
  · intro h
    rw [if_pos h, truncQ_eq_floor]
    exact mul_nonneg (by exact_mod_cast hlim) hr
  · intro h
    rw [if_neg (by omega)]

/-- C2 witness: the concrete scenario `limit = 1`, `backoffRatio = 1/10`,
overload signal: the new limit is `max 1 (floor (1/10)) = 1` (the floor
clamp is exercised). -/
theorem C2_overload_decrease_witness :
    (({ backoffRatio := 1/10, inflight := 1, limit := 1 } : limiter).finish
        { inflight := 1, limit := 1 } (.statusErr .unavailable)).limit = 1 := by
  have h := (C2_overload_decrease
      { backoffRatio := 1/10, inflight := 1, limit := 1 }
      { inflight := 1, limit := 1 } (.statusErr .unavailable)
      (by decide) (by decide) (by norm_num)).1 (by decide)
  rw [h]
  norm_num

/-- C3: on a non-overload settle, the limit increases by exactly 1 if and
only if the current `inflight` exceeds `limit/2` under Go's (truncating)
integer division; otherwise the state is unchanged. For `limit = 5` the
threshold is `inflight >= 3`. -/
theorem C3_other_increase (l : limiter) (tx : transaction) (err : GoError)
    (hov : isOverloadCode (status.Code err) = false) :
    ((l.finish tx err).limit = l.limit + 1 ↔ Int.tdiv l.limit 2 < l.inflight) ∧
    (l.inflight ≤ Int.tdiv l.limit 2 → l.finish tx err = l) ∧
    (l.limit = 5 → ((l.finish tx err).limit = l.limit + 1 ↔ 3 ≤ l.inflight)) := by
  rw [finish_other_eq l tx err hov]
  rcases lt_or_le (Int.tdiv l.limit 2) l.inflight with hc | hc
  · rw [if_pos hc]
    refine ⟨?_, ?_, ?_⟩
    · simpa using hc
    · intro hle
      exact absurd hc (not_lt.mpr hle)
    · intro h5
      have h2 : Int.tdiv 5 2 = 2 := by decide
      rw [h5] at hc
      rw [h2] at hc
      simp
      omega
  · rw [if_neg (not_lt.mpr hc)]
    refine ⟨?_, fun _ => rfl, ?_⟩
    · constructor
      · intro habs
        omega
      · intro hlt
        exact absurd hlt (not_lt.mpr hc)
    · intro h5
      have h2 : Int.tdiv 5 2 = 2 := by decide
      rw [h5] at hc
      rw [h2] at hc
      constructor <;> intro <;> omega

/-- C3 witness: with `limit = 5` and `inflight = 3` a non-overload settle
increases the limit by exactly 1. -/
theorem C3_other_increase_witness :
    (({ backoffRatio := 1/2, inflight := 3, limit := 5 } : limiter).finish
        { inflight := 3, limit := 5 } .nilErr).limit =
      ({ backoffRatio := 1/2, inflight := 3, limit := 5 } : limiter).limit + 1 :=
  ((C3_other_increase { backoffRatio := 1/2, inflight := 3, limit := 5 }
      { inflight := 3, limit := 5 } .nilErr (by decide)).2.2 rfl).mpr (by decide)

/-- C4: for a limiter constructed with `initialCeiling >= 1` and
`backoffRatio` in `(0,1)`, the limit is at least 1 after every sequence of
admit and settle operations, in any interleaving. -/
theorem C4_ceiling_invariant (initial : Int) (r : ℚ) (ops : List Op)
    (hinit : 1 ≤ initial) (hr0 : 0 < r) (hr1 : r < 1) :
    1 ≤ ((Limiter initial r).run ops).limit :=
  run_limit_ge_one ops _ (by simpa [Limiter] using hinit)

/-- C4 witness: a concrete history with an admit, an overload settle that
exercises the clamp, and another admit. -/
theorem C4_ceiling_invariant_witness :
    1 ≤ ((Limiter 1 (1/10)).run
      [Op.start, Op.finish { inflight := 1, limit := 1 } (.statusErr .canceled),
       Op.start]).limit :=
  C4_ceiling_invariant 1 (1/10) _ (by norm_num) (by norm_num) (by norm_num)

/-- C5: on a freshly constructed limiter with initial limit `c >= 1` and no
settle calls, the Nth admit call succeeds exactly when `N <= c + 1`: the
first `c + 1` calls are admitted and every later call is rejected. -/
theorem C5_fresh_admission_boundary (c : Int) (r : ℚ) (N : Nat)
    (hc : 1 ≤ c) (hN : 1 ≤ N) :
    ((((Limiter c r).runStarts (N - 1)).start).1.isSome = true) ↔ (N : Int) ≤ c + 1 := by
  have h := runStarts_eq r c 0 le_rfl (by omega) (N - 1)
  rw [show Limiter c r = { backoffRatio := r, inflight := 0, limit := c } from rfl, h]
  rw [limiter.start]
  split
  · rename_i hgt
    simp only [limiter.inflight, limiter.limit] at hgt
    simp only [Option.isSome_none, Bool.false_eq_true, false_iff, not_le]
    omega
  · rename_i hgt
    simp only [limiter.inflight, limiter.limit, not_lt] at hgt
    simp only [Option.isSome_some, true_iff]
    omega

/-- C5 witness: with initial limit 2, the third call is admitted and the
fourth is rejected. -/
theorem C5_fresh_admission_boundary_witness :
    ((((Limiter 2 (1/2)).runStarts 2).start).1.isSome = true) ∧
    ¬((((Limiter 2 (1/2)).runStarts 3).start).1.isSome = true) :=
  ⟨(C5_fresh_admission_boundary 2 (1/2) 3 (by norm_num) (by norm_num)).mpr (by norm_num),
   fun habs => by
    have h := (C5_fresh_admission_boundary 2 (1/2) 4 (by norm_num) (by norm_num)).mp habs
    norm_num at h⟩

/-- C6: `finish` classifies an outcome as an overload signal exactly when
its code is `Canceled`, `DeadlineExceeded` or `Unavailable`; every other
outcome, including a `nil` error (success, code `OK`) and a non-status
error (code `Unknown`), takes the additive-increase path; and `finish` is a
total function of its inputs (no failure mode). -/
theorem C6_outcome_classification :
    (∀ c : codes.Code,
      isOverloadCode c = true ↔
        (c = codes.Code.canceled ∨ c = codes.Code.deadlineExceeded ∨
         c = codes.Code.unavailable)) ∧
    (∀ (l : limiter) (tx : transaction) (err : GoError),
      l.finish tx err =
        if isOverloadCode (status.Code err) then
          (if tx.limit ≤ l.limit then
            { l with limit := max 1 (truncQ ((l.limit : ℚ) * l.backoffRatio)) }
           else l)
        else
          (if Int.tdiv l.limit 2 < l.inflight then
            { l with limit := l.limit + 1 }
           else l)) ∧
    (∀ (l : limiter) (tx : transaction),
      l.finish tx .nilErr = l.finish tx (.statusErr .ok) ∧
      l.finish tx .nonStatusErr = l.finish tx (.statusErr .unknown)) := by
  refine ⟨?_, ?_, ?_⟩
  · intro c
    cases c <;> simp [isOverloadCode]
  · intro l tx err
    cases hov : isOverloadCode (status.Code err)
    · rw [finish_other_eq l tx err hov]
      simp
    · rw [finish_overload_eq l tx err hov]
      simp
  · intro l tx
    exact ⟨rfl, rfl⟩

/-- C7: no operation ever decreases `inflight`: `finish` leaves it
untouched for every ticket and outcome, `start` increments it exactly on
the admitted path, and over any sequence of operations `inflight` is
monotonically non-decreasing. -/
theorem C7_inflight_monotone (l : limiter) :
    (∀ (tx : transaction) (err : GoError), (l.finish tx err).inflight = l.inflight) ∧
    ((l.start).2.inflight =
      if l.limit < l.inflight then l.inflight else l.inflight + 1) ∧
    (∀ ops : List Op, l.inflight ≤ (l.run ops).inflight) := by
  refine ⟨?_, ?_, fun ops => run_inflight_mono ops l⟩
  · intro tx err
    cases hov : isOverloadCode (status.Code err)
    · rw [finish_other_eq l tx err hov]
      split <;> rfl
    · rw [finish_overload_eq l tx err hov]
      split <;> rfl
  · rw [limiter.start]
    rcases lt_or_le l.limit l.inflight with h | h
    · rw [if_pos h, if_pos h]
    · rw [if_neg (not_lt.mpr h), if_neg (not_lt.mpr h)]

/-- C8: when `start` rejects (`inflight > limit`) it leaves the state —
both `inflight` and `limit` — exactly unchanged and returns no ticket;
whenever no ticket is returned the state is unchanged, so `inflight` is
incremented only on the admitted path. -/
theorem C8_reject_frame (l : limiter) (h : l.limit < l.inflight) :
    l.start = (none, l) ∧
    (∀ m : limiter, (m.start).1 = none → (m.start).2 = m) := by
  constructor
  · rw [limiter.start, if_pos h]
  · intro m hm
    rw [limiter.start] at hm ⊢
    by_cases hc : m.limit < m.inflight
    · rw [if_pos hc]
    · rw [if_neg hc] at hm
      simp at hm

/-- C8 witness: a concrete rejecting state, left exactly unchanged. -/
theorem C8_reject_frame_witness :
    ({ backoffRatio := 1/2, inflight := 3, limit := 1 } : limiter).start =
      (none, { backoffRatio := 1/2, inflight := 3, limit := 1 }) :=
  (C8_reject_frame { backoffRatio := 1/2, inflight := 3, limit := 1 } (by decide)).1

/-- C9: construction performs no parameter validation: a limiter built with
initial limit 0 admits its first call (the check `0 > 0` is false), the
limit stays 0 — below the documented minimum of 1 — through any number of
admit calls, and the first overload settle (with the ticket the admit
produced) clamps it up to 1. -/
theorem C9_no_construction_validation (r : ℚ) (hr0 : 0 ≤ r) (hr1 : r < 1) :
    (Limiter 0 r).limit = 0 ∧ (Limiter 0 r).inflight = 0 ∧
    ((Limiter 0 r).start).1 = some { inflight := 1, limit := 0 } ∧
    (∀ n : Nat, ((Limiter 0 r).runStarts n).limit = 0) ∧
    (∀ err : GoError, isOverloadCode (status.Code err) = true →
      (((Limiter 0 r).start).2.finish { inflight := 1, limit := 0 } err).limit = 1) := by
  refine ⟨rfl, rfl, rfl, ?_, ?_⟩
  · intro n
    have h := runStarts_eq r 0 0 le_rfl (by omega) n
    rw [show Limiter 0 r = { backoffRatio := r, inflight := 0, limit := 0 } from rfl, h]
  · intro err hov
    have hstart : ((Limiter 0 r).start).2 =
        { backoffRatio := r, inflight := 1, limit := 0 } := rfl
    rw [hstart, finish_overload_eq _ _ _ hov, if_pos le_rfl]
    have h0 : (((0 : Int) : ℚ)) * r = 0 := by push_cast; ring
    show max 1 (truncQ (((0 : Int) : ℚ) * r)) = 1
    rw [h0]
    decide

/-- C9 witness: with ratio `1/2`, admit at limit 0 then overload-settle;
the limit ends at 1. -/
theorem C9_no_construction_validation_witness :
    (((Limiter 0 (1/2)).start).2.finish { inflight := 1, limit := 0 }
        (.statusErr .unavailable)).limit = 1 :=
  (C9_no_construction_validation (1/2) (by norm_num) (by norm_num)).2.2.2.2
    (.statusErr .unavailable) (by decide)

/-- C10: a non-overload settle ignores the ticket entirely — any two
tickets give the same result — and in particular a limit that has been
decreased below the ticket's recorded limit since admission can still be
increased by this call. -/
theorem C10_other_ignores_ticket (l : limiter) (tx tx' : transaction) (err : GoError)
    (hov : isOverloadCode (status.Code err) = false) :
    l.finish tx err = l.finish tx' err ∧
    (∀ t : transaction,
      ({ backoffRatio := 1, inflight := 3, limit := 2 } : limiter).limit < t.limit →
      (({ backoffRatio := 1, inflight := 3, limit := 2 } : limiter).finish
          t err).limit = 3) := by
  constructor
  · rw [finish_other_eq l tx err hov, finish_other_eq l tx' err hov]
  · intro t ht
    rw [finish_other_eq _ t err hov]
    decide

/-- C10 witness: two different tickets, same non-overload settle result. -/
theorem C10_other_ignores_ticket_witness :
    ({ backoffRatio := 1/2, inflight := 3, limit := 2 } : limiter).finish
        { inflight := 1, limit := 4 } .nilErr =
      ({ backoffRatio := 1/2, inflight := 3, limit := 2 } : limiter).finish
        { inflight := 2, limit := 1 } .nilErr :=
  (C10_other_ignores_ticket { backoffRatio := 1/2, inflight := 3, limit := 2 }
    { inflight := 1, limit := 4 } { inflight := 2, limit := 1 } .nilErr (by decide)).1
